import Mathlib

/-!
# Verification of `resize.js` (rstone770/resize)

A shallow embedding of `src/source/resize.js` — a small library that lets
clients subscribe to size-change notifications for individual DOM elements
or the window — together with proofs about its behaviour.

Modelling conventions:
* DOM elements are identified by natural numbers; the document environment
  is a pair of functions: `query : String → List Nat` (for
  `document.querySelectorAll`) and `env : Nat → Nat × Nat` giving each
  element's current `clientWidth`/`clientHeight`.
* JavaScript callback values are `JVal`; only `JVal.fn _` is callable.
* The module-level mutable globals (`counter`, `items`, `isListening`) are
  gathered in a state record `St` threaded explicitly.  `installs` counts
  the `window.addEventListener` calls so that "the listener is installed
  at most once" is observable.
* Callback invocations and record mutations performed by the dispatcher
  tick are recorded as an `Event` trace, preserving their order.
-/

namespace Resize

/-- A subscription target: the window sentinel or a DOM element (by id). -/
inductive Target where
  | window : Target
  | element : Nat → Target
deriving DecidableEq, Repr

/-- JavaScript values that can be passed as the `callback` argument.
Only `fn` is callable (`typeof v === 'function'`). -/
inductive JVal where
  | fn : Nat → JVal
  | str : String → JVal
  | num : Int → JVal
  | nul : JVal
  | undef : JVal
  | obj : JVal
deriving DecidableEq, Repr

/-- `typeof v === 'function'`. -/
def isFunction : JVal → Bool
  | JVal.fn _ => true
  | _ => false

/-- JavaScript selector values accepted by the resolver `$`:
a CSS selector string, a `NodeList`, a single element (a value with a
numeric `nodeType`), an array of selector values, `null`/`undefined`,
or any other unsupported value. -/
inductive Sel where
  | str : String → Sel
  | nodeList : List Nat → Sel
  | elem : Nat → Sel
  | arr : List Sel → Sel
  | nul : Sel
  | unknown : Sel

/-- Known selector value types (source lines 34–40; `UKNOWN` is the
source's own spelling). -/
inductive SelectorKind where
  | SELECTOR | NODE_LIST | ELEMENT | ARRAY | UKNOWN
deriving DecidableEq, Repr

/-- `getSelectorKind` (source lines 48–62): classify a selector value. -/
def getSelectorKind : Sel → SelectorKind
  | Sel.nul => SelectorKind.UKNOWN
  | Sel.nodeList _ => SelectorKind.NODE_LIST
  | Sel.str _ => SelectorKind.SELECTOR
  | Sel.elem _ => SelectorKind.ELEMENT
  | Sel.arr _ => SelectorKind.ARRAY
  | Sel.unknown => SelectorKind.UKNOWN

/-- `$` (source lines 70–89): resolve a selector value to an array of
element ids.  The `ARRAY` case is the source's
`selector.filter(s => getSelectorKind(s) !== SelectorKind.ARRAY)
        .reduce((result, s) => result.concat($(s)), [])`:
nested arrays are removed by the filter before the recursive resolution.
`query` stands for `document.querySelectorAll`. -/
def dollar (query : String → List Nat) : Sel → List Nat
  | Sel.str s => query s
  | Sel.nodeList es => es
  | Sel.elem e => [e]
  | Sel.arr xs =>
      ((xs.filter fun x => getSelectorKind x != SelectorKind.ARRAY).attach).foldl
        (fun result x => result ++ dollar query x.1) []
  | Sel.nul => []
  | Sel.unknown => []
termination_by s => sizeOf s
decreasing_by
  simp_wf
  have hx : x.1 ∈ xs := List.mem_of_mem_filter x.2
  have := List.sizeOf_lt_of_mem hx
  omega

/-- Modelled from the spec (§4.1), for comparison with `dollar`: "If input
is a sequence (array-like) of mixed values, recursively resolve each entry
that is not itself a sequence, and concatenate the results in order;
entries that are themselves nested sequences are recursively flattened
with the same rule."  Every entry of an array — nested arrays included —
is recursively resolved and the results are concatenated in order. -/
def resolveSpec (query : String → List Nat) : Sel → List Nat
  | Sel.str s => query s
  | Sel.nodeList es => es
  | Sel.elem e => [e]
  | Sel.arr xs => (xs.attach.map fun x => resolveSpec query x.1).flatten
  | Sel.nul => []
  | Sel.unknown => []
termination_by s => sizeOf s
decreasing_by
  simp_wf
  have := List.sizeOf_lt_of_mem x.2
  omega

/-- The element-measurement environment: `env e` is
`(e.clientWidth, e.clientHeight)` at the current instant. -/
def Env : Type := Nat → Nat × Nat

/-- `sizeOf` (source lines 182–184): `[element.clientWidth, element.clientHeight]`. -/
def sizeOf (env : Env) (element : Nat) : List Nat :=
  [(env element).1, (env element).2]

/-- `sizeEquals` (source lines 172–174): `a[0] === b[0] && a[1] === b[1]`.
Indexing past the end of a JavaScript array yields `undefined`, and
`undefined === undefined` is `true`; `Option` equality mirrors this. -/
def sizeEquals (a b : List Nat) : Bool :=
  (a[0]? == b[0]?) && (a[1]? == b[1]?)

/-- A subscriber item value (source lines 200–212): the target context,
the handler callback, and the last-known size. -/
structure Subscriber where
  context : Target
  handler : JVal
  size : List Nat
deriving DecidableEq, Repr

/-- A key–value pair of the subscriber collection (source lines 147–156):
a unique id and the subscriber value. -/
structure Item where
  id : Nat
  value : Subscriber
deriving DecidableEq, Repr

/-- The module-level mutable globals of the library: the subscriber
collection's `counter` and `items` (source lines 110, 117), the
`isListening` flag (source line 191), and `installs`, counting the
`window.addEventListener('resize', handleResize)` calls (source
line 292) so that single installation is observable. -/
structure St where
  counter : Nat
  items : List Item
  isListening : Bool
  installs : Nat
deriving DecidableEq, Repr

/-- The initial state of the module's globals: `counter = 0`,
`items = []`, `isListening = false`, no listener installed. -/
def st0 : St := ⟨0, [], false, 0⟩

/-- `subscribers.insert` (source lines 147–156): allocate `id = counter++`,
push `{id, value}`, return the id. -/
def insert (value : Subscriber) (st : St) : Nat × St :=
  (st.counter,
   { st with
      counter := st.counter + 1
      items := st.items ++ [⟨st.counter, value⟩] })

/-- `subscribers.filterById` (source lines 135–139): keep exactly the
items whose id satisfies the predicate. -/
def filterById (p : Nat → Bool) (st : St) : St :=
  { st with items := st.items.filter fun item => p item.id }

/-- `createSubscriber` (source lines 200–212): `size` starts as `[]` and is
set to `sizeOf(context)` only when the context is not `window`. -/
def createSubscriber (env : Env) (context : Target) (handler : JVal) : Subscriber :=
  match context with
  | Target.window => ⟨context, handler, []⟩
  | Target.element e => ⟨context, handler, sizeOf env e⟩

/-- An observable action performed by the dispatcher tick, in order:
a `subscriber.size = currentSize` store, or a `subscriber.handler(context)`
callback invocation. -/
inductive Event where
  | setSize : Nat → List Nat → Event
  | invoke : JVal → Target → Event
deriving DecidableEq, Repr

/-- The body of `handleResize`'s `forEach` (source lines 218–231) for one
subscriber: window subscribers are invoked unconditionally; element
subscribers are re-measured, and on a changed size the record is updated
and then the handler invoked.  Returns the updated record and the ordered
event trace it produced. -/
def processSubscriber (env : Env) (sub : Subscriber) : Subscriber × List Event :=
  match sub.context with
  | Target.window => (sub, [Event.invoke sub.handler Target.window])
  | Target.element e =>
      let currentSize := sizeOf env e
      if sizeEquals currentSize sub.size then
        (sub, [])
      else
        ({ sub with size := currentSize },
         [Event.setSize e currentSize, Event.invoke sub.handler (Target.element e)])

/-- `handleResize` (source lines 217–232): visit every item of the
collection in order, process each subscriber, and collect the updated
items and the concatenated event trace. -/
def handleResize (env : Env) : List Item → List Item × List Event
  | [] => ([], [])
  | item :: rest =>
      let (value, evs) := processSubscriber env item.value
      let (rest', evs') := handleResize env rest
      (⟨item.id, value⟩ :: rest', evs ++ evs')

/-- JavaScript `Array.prototype.indexOf`: the first index of `x` in `l`,
or `-1` when absent. -/
def jsIndexOf (l : List Nat) (x : Nat) : Int :=
  if l.contains x then (l.indexOf x : Int) else -1

/-- `subscribeToElements` (source lines 241–251): the
`elements.map(e => subscribers.insert(createSubscriber(e, callback)))`
loop, threading the registry state and returning the inserted ids in
order. -/
def insertAll (env : Env) (callback : JVal) : List Nat → St → List Nat × St
  | [], st => ([], st)
  | e :: rest, st =>
      let (i, st1) := insert (createSubscriber env (Target.element e) callback) st
      let (is, st2) := insertAll env callback rest st1
      (i :: is, st2)

/-- `subscribeToElements` (source lines 241–251): insert one subscriber per
element and return the unsubscribe closure
`() => subscribers.filterById(id => subscriberIds.indexOf(id) === -1)`. -/
def subscribeToElements (env : Env) (elements : List Nat) (callback : JVal)
    (st : St) : St × (St → St) :=
  let (subscriberIds, st') := insertAll env callback elements st
  (st', fun s => filterById (fun id => jsIndexOf subscriberIds id == -1) s)

/-- `subscribeToWindow` (source lines 259–267): insert one window
subscriber and return the unsubscribe closure
`() => subscribers.filterById(id => subscriberId !== id)`. -/
def subscribeToWindow (env : Env) (callback : JVal) (st : St) : St × (St → St) :=
  let (subscriberId, st') := insert (createSubscriber env Target.window callback) st
  (st', fun s => filterById (fun id => subscriberId != id) s)

/-- The selector argument of the two-argument call form: the window object
itself or a selector value. -/
inductive Arg where
  | window : Arg
  | sel : Sel → Arg

/-- The two-argument path of `resize` (source lines 282–298).  If the
callback is not a function, a `TypeError` is thrown before anything else
happens, so the state comes back unchanged with `Except.error ()`.
Otherwise the listener is installed if absent, and then the selector is
resolved and the subscriptions created; the updated state and the
unsubscribe closure come back in `Except.ok`. -/
def resize2 (query : String → List Nat) (env : Env) (selector : Arg)
    (callback : JVal) (st : St) : St × Except Unit (St → St) :=
  if isFunction callback = false then
    (st, Except.error ())
  else
    let st1 :=
      if st.isListening = false then
        { st with isListening := true, installs := st.installs + 1 }
      else st
    match selector with
    | Arg.window =>
        let (st2, unsub) := subscribeToWindow env callback st1
        (st2, Except.ok unsub)
    | Arg.sel s =>
        let (st2, unsub) := subscribeToElements env (dollar query s) callback st1
        (st2, Except.ok unsub)

/-- The one-argument path of `resize` (source lines 283–284):
`resize(window, selector)`. -/
def resize1 (query : String → List Nat) (env : Env) (callback : JVal)
    (st : St) : St × Except Unit (St → St) :=
  resize2 query env Arg.window callback st

/-- The source installs `handleResize` itself as the `resize` listener
(source line 292, `window.addEventListener('resize', handleResize)`),
with no timer in between: each viewport resize signal runs one tick,
immediately.  `envs` gives the element sizes observed at each successive
signal; the result is the final item list and one event trace per
signal. -/
def runTicks (items : List Item) : List Env → List Item × List (List Event)
  | [] => (items, [])
  | env :: rest =>
      let (items1, evs) := handleResize env items
      let (items2, traces) := runTicks items1 rest
      (items2, evs :: traces)

/-- Modelled from the spec: "the tick handler is scheduled via a
trailing-edge debounce with a default window of roughly one animation
frame (~16 ms); each new signal within the window resets the timer, so
the handler fires once, a fixed delay after the last signal in a burst
quiets down."  This code is not in `src/source/resize.js` (the spec
attributes the explicit debounce to the repository's first variant);
given the ascending timestamps of the resize signals, it counts how often
the handler would fire: once per signal whose successor is at least the
debounce window later, plus once for the last signal. -/
def debounceFireCount (window : Nat) : List Nat → Nat
  | [] => 0
  | [_] => 1
  | t1 :: t2 :: rest =>
      (if t2 - t1 < window then 0 else 1) + debounceFireCount window (t2 :: rest)

/-- Externally observable actions against the module: a call of the public
entry point (two-argument form; `Arg.window` with a callable also covers
the one-argument form, which delegates to it), or an invocation of some
unsubscribe capability — every unsubscribe closure the library returns is
a `filterById` with some predicate, so arbitrary `rem p` actions cover
them all. -/
inductive Act where
  | call : Arg → JVal → Act
  | rem : (Nat → Bool) → Act

/-- Whether an action is a call that passes the callback validation (and
therefore reaches the listener-installation check). -/
def isValidCall : Act → Bool
  | Act.call _ cb => isFunction cb
  | Act.rem _ => false

/-- Run a sequence of actions against the module state.  A call that
throws (`Except.error`) leaves the state exactly as `resize2` returned
it — the throw happens before any mutation. -/
def applyAct (query : String → List Nat) (env : Env) : Act → St → St
  | Act.call a cb, st => (resize2 query env a cb st).1
  | Act.rem p, st => filterById p st

/-- Fold `applyAct` over a list of actions. -/
def runActs (query : String → List Nat) (env : Env) (acts : List Act) (st : St) : St :=
  acts.foldl (fun s a => applyAct query env a s) st

/-- A raw operation against the subscriber registry: an `insert` of a
value or a `filterById` removal. -/
inductive RegOp where
  | ins : Subscriber → RegOp
  | rem : (Nat → Bool) → RegOp

/-- Run registry operations in order, collecting the handle returned by
each `insert` call. -/
def runOps : List RegOp → St → List Nat × St
  | [], st => ([], st)
  | RegOp.ins v :: rest, st =>
      let (i, st1) := insert v st
      let (is, st2) := runOps rest st1
      (i :: is, st2)
  | RegOp.rem p :: rest, st => runOps rest (filterById p st)

/-- The number of `insert` operations in a registry operation list. -/
def countIns : List RegOp → Nat
  | [] => 0
  | RegOp.ins _ :: rest => countIns rest + 1
  | RegOp.rem _ :: rest => countIns rest

/-- Registry well-formedness: every live item's id was allocated below the
current counter.  Holds for the initial state and is preserved by every
operation. -/
def Wf (st : St) : Prop := ∀ item ∈ st.items, item.id < st.counter

/-- The items `insertAll` appends for `elements`, ids starting at `c`. -/
def mkItems (env : Env) (callback : JVal) : List Nat → Nat → List Item
  | [], _ => []
  | e :: rest, c =>
      ⟨c, createSubscriber env (Target.element e) callback⟩ :: mkItems env callback rest (c + 1)

/-- A document in which no selector matches any element. -/
def query0 : String → List Nat := fun _ => []

/-- A document in which every selector matches elements 7 and 8. -/
def query78 : String → List Nat := fun _ => [7, 8]

/-- A measurement environment where every element is 0 × 0. -/
def env0 : Env := fun _ => (0, 0)

/-! ## Helper lemmas -/

theorem foldl_append_attach {α γ : Type} (f : α → List γ) (l : List α) (init : List γ) :
    l.attach.foldl (fun r x => r ++ f x.1) init = init ++ (l.map f).flatten := by
  induction l generalizing init with
  | nil => simp
  | cons a t ih => simp [List.foldl_map, ih]

/-- Unfolding of `dollar` on an array selector: the source's
filter-then-reduce over the entries. -/
theorem dollar_arr (query : String → List Nat) (xs : List Sel) :
    dollar query (Sel.arr xs) =
      ((xs.filter fun x => getSelectorKind x != SelectorKind.ARRAY).map (dollar query)).flatten := by
  rw [dollar, foldl_append_attach]
  simp

/-- Unfolding of `resolveSpec` on an array selector. -/
theorem resolveSpec_arr (query : String → List Nat) (xs : List Sel) :
    resolveSpec query (Sel.arr xs) = (xs.map (resolveSpec query)).flatten := by
  rw [resolveSpec]
  congr 1
  exact List.attach_map_coe xs (resolveSpec query)

/-- `handleResize` processes a concatenation segmentwise: each item is
visited exactly once, in order, and contributes its own events. -/
theorem handleResize_append (env : Env) (l1 l2 : List Item) :
    handleResize env (l1 ++ l2) =
      ((handleResize env l1).1 ++ (handleResize env l2).1,
       (handleResize env l1).2 ++ (handleResize env l2).2) := by
  induction l1 with
  | nil => simp [handleResize]
  | cons a t ih => simp [handleResize, ih]

/-! ## C2: array entries of the Element Resolver -/

/-- C2, counterexample.  The claim says nested arrays are recursively
flattened so their elements appear in the output; but on the input
`[element 1, [element 2]]` the source's `$` filters the nested array out
before resolving (source lines 79–85), producing `[1]`, whereas the
spec's flattening rule (modelled by `resolveSpec`) produces `[1, 2]`:
the nested entry `element 2` is discarded, not flattened. -/
theorem dollar_discards_nested_array :
    dollar (fun _ => []) (Sel.arr [Sel.elem 1, Sel.arr [Sel.elem 2]]) = [1] ∧
    resolveSpec (fun _ => []) (Sel.arr [Sel.elem 1, Sel.arr [Sel.elem 2]]) = [1, 2] := by
  constructor
  · simp [dollar_arr, dollar, getSelectorKind]
  · simp [resolveSpec_arr, resolveSpec]

/-- C2, amended: for every array input, each entry that is not itself an
array is resolved by the same rules and the results are concatenated in
order, while entries that are themselves nested arrays contribute
nothing — they are filtered out before resolution, so their elements are
discarded. -/
theorem dollar_array_concat_nonarray_entries (query : String → List Nat) (xs : List Sel) :
    dollar query (Sel.arr xs) =
      (xs.map fun x =>
        if getSelectorKind x = SelectorKind.ARRAY then [] else dollar query x).flatten := by
  rw [dollar_arr]
  induction xs with
  | nil => simp
  | cons a t ih =>
      by_cases ha : getSelectorKind a = SelectorKind.ARRAY <;>
        simp [List.filter_cons, ha, ih]

/-! ## C1 / C6: dispatcher tick behaviour -/

/-- C1: on a dispatcher tick, an element-bound subscription's callback is
invoked if and only if `sizeOf(element)` measured at tick time differs
(componentwise, via `sizeEquals`) from the record's stored last-known
size; when it fires, the stored size is updated to the new reading and the
`setSize` store precedes the `invoke` in the event trace; when the size is
unchanged, the record comes back unmutated and no event is produced.  (The
stored size is initialised synchronously at subscription time by
`createSubscriber`.)  Stated for an element subscription at an arbitrary
position of the registry. -/
theorem element_tick_fires_iff (env : Env) (l1 l2 : List Item) (id e : Nat)
    (hnd : JVal) (s : List Nat) :
    handleResize env (l1 ++ ⟨id, ⟨Target.element e, hnd, s⟩⟩ :: l2) =
      ((handleResize env l1).1 ++
        ⟨id, ⟨Target.element e, hnd,
          if sizeEquals (sizeOf env e) s then s else sizeOf env e⟩⟩ ::
        (handleResize env l2).1,
       (handleResize env l1).2 ++
        (if sizeEquals (sizeOf env e) s then ([] : List Event)
         else [Event.setSize e (sizeOf env e), Event.invoke hnd (Target.element e)]) ++
        (handleResize env l2).2) ∧
    (Event.invoke hnd (Target.element e) ∈
        (handleResize env [⟨id, ⟨Target.element e, hnd, s⟩⟩]).2 ↔
      ¬ sizeEquals (sizeOf env e) s = true) := by
  constructor
  · rw [handleResize_append]
    by_cases hc : sizeEquals (sizeOf env e) s <;>
      simp [handleResize, processSubscriber, hc]
  · by_cases hc : sizeEquals (sizeOf env e) s <;>
      simp [handleResize, processSubscriber, hc]

/-- C6: on a dispatcher tick, a viewport-bound subscription's callback is
invoked unconditionally — no size is measured or compared — with the
window passed as the argument, and its record is not mutated.  Stated for
a window subscription at an arbitrary position of the registry. -/
theorem window_tick_fires_always (env : Env) (l1 l2 : List Item) (id : Nat)
    (hnd : JVal) (s : List Nat) :
    handleResize env (l1 ++ ⟨id, ⟨Target.window, hnd, s⟩⟩ :: l2) =
      ((handleResize env l1).1 ++ ⟨id, ⟨Target.window, hnd, s⟩⟩ ::
        (handleResize env l2).1,
       (handleResize env l1).2 ++ Event.invoke hnd Target.window ::
        (handleResize env l2).2) := by
  rw [handleResize_append]
  simp [handleResize, processSubscriber]

/-! ## Registry helper lemmas -/

theorem length_mkItems (env : Env) (cb : JVal) (elements : List Nat) (c : Nat) :
    (mkItems env cb elements c).length = elements.length := by
  induction elements generalizing c with
  | nil => rfl
  | cons e rest ih => simp [mkItems, ih]

theorem mem_mkItems_id (env : Env) (cb : JVal) (elements : List Nat) (c : Nat) :
    ∀ item ∈ mkItems env cb elements c, c ≤ item.id ∧ item.id < c + elements.length := by
  induction elements generalizing c with
  | nil => intro item h; cases h
  | cons e rest ih =>
      intro item h
      rcases List.mem_cons.mp h with h | h
      · subst h
        simp only [List.length_cons]
        omega
      · have := ih (c + 1) item h
        simp only [List.length_cons]
        omega

theorem insertAll_eq (env : Env) (cb : JVal) (elements : List Nat) (st : St) :
    insertAll env cb elements st =
      (List.range' st.counter elements.length,
       { st with
          counter := st.counter + elements.length
          items := st.items ++ mkItems env cb elements st.counter }) := by
  induction elements generalizing st with
  | nil => simp [insertAll, mkItems]
  | cons e rest ih =>
      cases st with
      | mk counter items isListening installs =>
          simp [insertAll, insert, ih, mkItems, List.range'_succ, St.mk.injEq]
          omega

theorem mem_range'_iff (c n x : Nat) : x ∈ List.range' c n ↔ c ≤ x ∧ x < c + n := by
  rw [List.mem_range']
  constructor
  · rintro ⟨i, hi, rfl⟩; omega
  · rintro ⟨h1, h2⟩; exact ⟨x - c, by omega, by omega⟩

theorem jsIndexOf_eq_neg_one (l : List Nat) (x : Nat) :
    (jsIndexOf l x == -1) = !(l.contains x) := by
  unfold jsIndexOf
  by_cases h : x ∈ l
  · have hc : l.contains x = true := by simpa using h
    simp only [hc, if_true, beq_eq_false_iff_ne, ne_eq, Bool.not_true]
    omega
  · have hc : l.contains x = false := by simpa using h
    simp [h, hc]

theorem filterById_idem (p : Nat → Bool) (s : St) :
    filterById p (filterById p s) = filterById p s := by
  simp [filterById, List.filter_filter]

theorem subscribeToElements_spec (env : Env) (elements : List Nat) (cb : JVal)
    (st : St) (hwf : Wf st) :
    ∃ st' u, subscribeToElements env elements cb st = (st', u) ∧
      st'.counter = st.counter + elements.length ∧
      st'.items = st.items ++ mkItems env cb elements st.counter ∧
      st'.isListening = st.isListening ∧
      st'.installs = st.installs ∧
      (u st').items = st.items ∧
      (∀ s2, u (u s2) = u s2) := by
  have hsub : subscribeToElements env elements cb st =
      ({ st with
          counter := st.counter + elements.length
          items := st.items ++ mkItems env cb elements st.counter },
       fun s => filterById
         (fun id => jsIndexOf (List.range' st.counter elements.length) id == -1) s) := by
    unfold subscribeToElements
    rw [insertAll_eq]
  refine ⟨_, _, hsub, rfl, rfl, rfl, rfl, ?_, fun s2 => filterById_idem _ s2⟩
  have h1 : st.items.filter
      (fun item => jsIndexOf (List.range' st.counter elements.length) item.id == -1) =
      st.items := by
    apply List.filter_eq_self.mpr
    intro item hm
    rw [jsIndexOf_eq_neg_one]
    have hlt := hwf item hm
    have hnot : item.id ∉ List.range' st.counter elements.length := by
      rw [mem_range'_iff]; omega
    simp [hnot]
  have h2 : (mkItems env cb elements st.counter).filter
      (fun item => jsIndexOf (List.range' st.counter elements.length) item.id == -1) =
      [] := by
    apply List.filter_eq_nil_iff.mpr
    intro item hm
    have hb := mem_mkItems_id env cb elements st.counter item hm
    have hmem : item.id ∈ List.range' st.counter elements.length := by
      rw [mem_range'_iff]; omega
    rw [jsIndexOf_eq_neg_one]
    simp [hmem]
  simp [filterById, List.filter_append, h1, h2]

/-! ## C3: exact creation and removal of subscriptions -/

/-- C3: with a callable callback, the two-argument call on a selector
resolving to N elements creates exactly N subscription records
(N = `(dollar query s).length`); the returned unsubscribe capability,
applied to the resulting state, removes exactly those N records — the
registry's item list comes back equal to the original — and invoking it
a second time (on any state) raises no error and removes nothing
further. -/
theorem subscribe_unsubscribe_exact (query : String → List Nat) (env : Env)
    (s : Sel) (cb : JVal) (st : St) (hcb : isFunction cb = true) (hwf : Wf st) :
    ∃ st' u, resize2 query env (Arg.sel s) cb st = (st', Except.ok u) ∧
      st'.items.length = st.items.length + (dollar query s).length ∧
      (u st').items = st.items ∧
      (∀ s2, u (u s2) = u s2) := by
  by_cases hl : st.isListening
  · obtain ⟨st', u, hsub, hc, hi, _, _, hrem, hid⟩ :=
      subscribeToElements_spec env (dollar query s) cb st hwf
    refine ⟨st', u, ?_, ?_, hrem, hid⟩
    · simp [resize2, hcb, hl, hsub]
    · simp [hi, length_mkItems]
  · have hwf1 : Wf { st with isListening := true, installs := st.installs + 1 } := by
      intro item hm
      exact hwf item hm
    obtain ⟨st', u, hsub, hc, hi, _, _, hrem, hid⟩ :=
      subscribeToElements_spec env (dollar query s) cb
        { st with isListening := true, installs := st.installs + 1 } hwf1
    refine ⟨st', u, ?_, ?_, hrem, hid⟩
    · simp [resize2, hcb, hl, hsub]
    · simp [hi, length_mkItems]

/-- C3, witness: on a document where `"div"` matches elements 7 and 8,
subscribing from the initial state creates 2 records, unsubscribing
restores the empty registry, and a second unsubscribe is a no-op. -/
theorem subscribe_unsubscribe_exact_witness :
    ∃ st' u, resize2 query78 env0 (Arg.sel (Sel.str "div")) (JVal.fn 0) st0 =
        (st', Except.ok u) ∧
      st'.items.length = st0.items.length + (dollar query78 (Sel.str "div")).length ∧
      (u st').items = st0.items ∧
      (∀ s2, u (u s2) = u s2) :=
  subscribe_unsubscribe_exact query78 env0 (Sel.str "div") (JVal.fn 0) st0 rfl
    (fun item hm => absurd hm (List.not_mem_nil item))

/-! ## C5 / C9 / C10: validation and empty resolution -/

/-- C5: when the second argument of the two-argument call is not callable,
a `TypeError` is raised synchronously and the module state comes back
exactly as it went in: no subscription record is inserted and the
dispatcher's `isListening` flag and listener installation count are
untouched.  (In the source the `throw` at line 286 precedes both the
listener installation and every registry insertion.) -/
theorem invalid_callback_throws (query : String → List Nat) (env : Env)
    (selector : Arg) (cb : JVal) (st : St) (hcb : isFunction cb = false) :
    resize2 query env selector cb st = (st, Except.error ()) := by
  simp [resize2, hcb]

/-- C5, witness: calling with a string as callback throws from the
initial state and leaves it unchanged. -/
theorem invalid_callback_throws_witness :
    resize2 query0 env0 (Arg.sel (Sel.str "div")) (JVal.str "oops") st0 =
      (st0, Except.error ()) :=
  invalid_callback_throws query0 env0 (Arg.sel (Sel.str "div")) (JVal.str "oops")
    st0 rfl

/-- C9: a selector that resolves to no elements yields zero subscriptions
— the registry's items and counter are unchanged — the call raises no
error (it returns `Except.ok`), and the returned unsubscribe capability
is a safe no-op on every state. -/
theorem empty_resolution_safe (query : String → List Nat) (env : Env) (s : Sel)
    (cb : JVal) (st : St) (hcb : isFunction cb = true)
    (hempty : dollar query s = []) :
    ∃ st' u, resize2 query env (Arg.sel s) cb st = (st', Except.ok u) ∧
      st'.items = st.items ∧ st'.counter = st.counter ∧
      (∀ s2, u s2 = s2) := by
  have hu : ∀ s2 : St,
      filterById (fun id => jsIndexOf ([] : List Nat) id == -1) s2 = s2 := by
    intro s2
    simp [filterById, jsIndexOf]
  by_cases hl : st.isListening
  · refine ⟨st, _, ?_, rfl, rfl, hu⟩
    simp [resize2, hcb, hl, subscribeToElements, hempty, insertAll]
  · refine ⟨{ st with isListening := true, installs := st.installs + 1 }, _,
      ?_, rfl, rfl, hu⟩
    simp [resize2, hcb, hl, subscribeToElements, hempty, insertAll]

/-- C9, witness: `resize(".missing", f)` on a document with no matches
creates nothing, throws nothing, and its unsubscribe capability is a
no-op. -/
theorem empty_resolution_safe_witness :
    ∃ st' u, resize2 query0 env0 (Arg.sel (Sel.str ".missing")) (JVal.fn 0) st0 =
        (st', Except.ok u) ∧
      st'.items = st0.items ∧ st'.counter = st0.counter ∧
      (∀ s2, u s2 = s2) :=
  empty_resolution_safe query0 env0 (Sel.str ".missing") (JVal.fn 0) st0 rfl
    (by simp [dollar, query0])

/-- C10: a call with a callable callback arms the dispatcher before the
selector is resolved: even when the selector resolves to zero elements,
the call leaves `isListening` true — installing the viewport listener
only if the dispatcher was idle — while creating no subscription. -/
theorem arms_even_when_nothing_resolves (query : String → List Nat) (env : Env)
    (s : Sel) (cb : JVal) (st : St) (hcb : isFunction cb = true)
    (hempty : dollar query s = []) :
    ∃ st' u, resize2 query env (Arg.sel s) cb st = (st', Except.ok u) ∧
      st'.isListening = true ∧
      st'.items = st.items ∧
      st'.installs = (if st.isListening then st.installs else st.installs + 1) := by
  by_cases hl : st.isListening
  · refine ⟨st, fun s2 => filterById (fun id => jsIndexOf ([] : List Nat) id == -1) s2,
      ?_, hl, rfl, by simp [hl]⟩
    simp [resize2, hcb, hl, subscribeToElements, hempty, insertAll]
  · refine ⟨{ st with isListening := true, installs := st.installs + 1 },
      fun s2 => filterById (fun id => jsIndexOf ([] : List Nat) id == -1) s2,
      ?_, rfl, rfl, by simp [hl]⟩
    simp [resize2, hcb, hl, subscribeToElements, hempty, insertAll]

/-- C10, witness: the first call of the process, with a selector matching
nothing, still arms the dispatcher and installs the listener. -/
theorem arms_even_when_nothing_resolves_witness :
    ∃ st' u, resize2 query0 env0 (Arg.sel (Sel.str ".missing")) (JVal.fn 0) st0 =
        (st', Except.ok u) ∧
      st'.isListening = true ∧
      st'.items = st0.items ∧
      st'.installs = (if st0.isListening then st0.installs else st0.installs + 1) :=
  arms_even_when_nothing_resolves query0 env0 (Sel.str ".missing") (JVal.fn 0)
    st0 rfl (by simp [dollar, query0])

/-! ## C7: the dispatcher arming state machine -/

theorem applyAct_not_valid (query : String → List Nat) (env : Env) (a : Act)
    (st : St) (ha : isValidCall a = false) :
    (applyAct query env a st).isListening = st.isListening ∧
    (applyAct query env a st).installs = st.installs := by
  cases a with
  | rem p => simp [applyAct, filterById]
  | call arg cb =>
      simp only [isValidCall] at ha
      simp [applyAct, resize2, ha]

theorem subscribeToElements_fst (env : Env) (elements : List Nat) (cb : JVal)
    (st : St) :
    (subscribeToElements env elements cb st).1 =
      { st with
          counter := st.counter + elements.length
          items := st.items ++ mkItems env cb elements st.counter } := by
  unfold subscribeToElements
  rw [insertAll_eq]

theorem applyAct_valid_idle (query : String → List Nat) (env : Env) (arg : Arg)
    (cb : JVal) (st : St) (hcb : isFunction cb = true)
    (h : st.isListening = false) :
    (applyAct query env (Act.call arg cb) st).isListening = true ∧
    (applyAct query env (Act.call arg cb) st).installs = st.installs + 1 := by
  cases arg with
  | window =>
      simp [applyAct, resize2, hcb, h, subscribeToWindow, insert]
  | sel s =>
      simp [applyAct, resize2, hcb, h, subscribeToElements_fst]

theorem applyAct_listening (query : String → List Nat) (env : Env) (a : Act)
    (st : St) (h : st.isListening = true) :
    (applyAct query env a st).isListening = true ∧
    (applyAct query env a st).installs = st.installs := by
  cases a with
  | rem p => simp [applyAct, filterById, h]
  | call arg cb =>
      by_cases hcb : isFunction cb
      · cases arg with
        | window => simp [applyAct, resize2, hcb, h, subscribeToWindow, insert]
        | sel s => simp [applyAct, resize2, hcb, h, subscribeToElements_fst]
      · simp only [Bool.not_eq_true] at hcb
        simp [applyAct, resize2, hcb, h]

theorem runActs_listening (query : String → List Nat) (env : Env)
    (acts : List Act) (st : St) (h : st.isListening = true) :
    (runActs query env acts st).isListening = true ∧
    (runActs query env acts st).installs = st.installs := by
  induction acts generalizing st with
  | nil => exact ⟨h, rfl⟩
  | cons a rest ih =>
      have h1 := applyAct_listening query env a st h
      have h2 := ih (applyAct query env a st) h1.1
      simpa [runActs, List.foldl_cons, h1.2] using h2

theorem runActs_idle (query : String → List Nat) (env : Env) (acts : List Act)
    (st : St) (h : st.isListening = false) :
    (runActs query env acts st).isListening = acts.any isValidCall ∧
    (runActs query env acts st).installs =
      st.installs + (if acts.any isValidCall then 1 else 0) := by
  induction acts generalizing st with
  | nil => simp [runActs, h]
  | cons a rest ih =>
      by_cases ha : isValidCall a
      · cases a with
        | rem p => simp [isValidCall] at ha
        | call arg cb =>
            have hcb : isFunction cb = true := by simpa [isValidCall] using ha
            have h1 := applyAct_valid_idle query env arg cb st hcb h
            have h2 := runActs_listening query env rest _ h1.1
            constructor
            · simpa [runActs, List.foldl_cons, ha] using h2.1
            · have := h2.2
              simp only [runActs, List.foldl_cons] at this ⊢
              rw [this, h1.2]
              simp [ha]
      · have h1 := applyAct_not_valid query env a st (by simpa using ha)
        have h2 := ih (applyAct query env a st) (h1.1.trans h)
        constructor
        · simpa [runActs, List.foldl_cons, ha] using h2.1
        · have := h2.2
          simp only [runActs, List.foldl_cons] at this ⊢
          rw [this, h1.2]
          simp [ha]

/-- C7, counterexample.  The claim ties the Idle → Armed transition to
"the first subscription-creating call"; but the code arms the dispatcher
before resolving the selector, so a first call whose selector resolves to
nothing performs the transition while creating no subscription, and the
later call that actually creates the first subscription installs no
listener.  Concretely: after `resize(null-like, f)` from the initial
state the listener is installed (`installs = 1`) with an empty registry,
and a following `resize(g)` (the first subscription-creating call) leaves
`installs` at 1 — the transition did not happen on it. -/
theorem arming_without_subscription :
    ((resize2 query0 env0 (Arg.sel Sel.nul) (JVal.fn 0) st0).1.isListening = true) ∧
    ((resize2 query0 env0 (Arg.sel Sel.nul) (JVal.fn 0) st0).1.items = []) ∧
    ((resize2 query0 env0 (Arg.sel Sel.nul) (JVal.fn 0) st0).1.installs = 1) ∧
    ((resize2 query0 env0 Arg.window (JVal.fn 1)
        (resize2 query0 env0 (Arg.sel Sel.nul) (JVal.fn 0) st0).1).1.installs = 1) := by
  have h1 : resize2 query0 env0 (Arg.sel Sel.nul) (JVal.fn 0) st0 =
      (⟨0, [], true, 1⟩,
       Except.ok (fun s2 =>
         filterById (fun id => jsIndexOf ([] : List Nat) id == -1) s2)) := by
    simp [resize2, isFunction, subscribeToElements, insertAll, dollar, st0, query0]
  rw [h1]
  refine ⟨rfl, rfl, rfl, ?_⟩
  simp [resize2, isFunction, subscribeToWindow, insert]

/-- C7 (amended): the dispatcher transitions from Idle to Armed exactly
once, synchronously, on the first call of the process that passes
callback validation — whether targeted at the viewport or an element, and
even if its selector resolves to zero elements, so it need not be the
first subscription-creating call.  It never transitions back: over any
sequence of calls and unsubscribe invocations (`Act.rem` covers every
unsubscribe closure the library hands out, removals of all records
included), the listener is installed exactly once if some validated call
occurred and never otherwise, and later calls reuse it without a second
installation. -/
theorem listener_installed_once (query : String → List Nat) (env : Env)
    (acts : List Act) :
    (runActs query env acts st0).isListening = acts.any isValidCall ∧
    (runActs query env acts st0).installs =
      (if acts.any isValidCall then 1 else 0) := by
  have h := runActs_idle query env acts st0 rfl
  simpa [st0] using h

/-! ## C4: one tick per signal, no debounce -/

/-- C4, counterexample.  The claim says bursts of viewport resize signals
are coalesced by a trailing-edge debounce with a ~16 ms window, firing
the tick handler once per quiet period.  But the source registers
`handleResize` itself as the listener (line 292) with no timer: two
signals 1 ms apart — well inside the claimed window — produce two tick
runs, each invoking a window subscriber's callback, whereas the claimed
debounce (modelled from the spec by `debounceFireCount`) fires exactly
once for that burst. -/
theorem burst_not_debounced :
    (runTicks [⟨0, ⟨Target.window, JVal.fn 0, []⟩⟩] [env0, env0]).2 =
      [[Event.invoke (JVal.fn 0) Target.window],
       [Event.invoke (JVal.fn 0) Target.window]] ∧
    debounceFireCount 16 [0, 1] = 1 :=
  ⟨rfl, rfl⟩

/-- C4 (amended): no debounce is applied — `handleResize` is registered
directly as the resize listener, so the tick handler runs exactly once
per viewport resize signal, immediately: a sequence of n signals produces
n tick traces, not one trace per quiet period. -/
theorem tick_per_signal (items : List Item) (envs : List Env) :
    (runTicks items envs).2.length = envs.length := by
  induction envs generalizing items with
  | nil => rfl
  | cons e rest ih => simp [runTicks, ih]

/-! ## C8: handle allocation -/

theorem runOps_eq (ops : List RegOp) (st : St) :
    (runOps ops st).1 = List.range' st.counter (countIns ops) ∧
    (runOps ops st).2.counter = st.counter + countIns ops := by
  induction ops generalizing st with
  | nil => simp [runOps, countIns]
  | cons op rest ih =>
      cases op with
      | ins v =>
          have h := ih { st with counter := st.counter + 1
                                 items := st.items ++ [⟨st.counter, v⟩] }
          simp only [runOps, insert, countIns]
          refine ⟨?_, ?_⟩
          · rw [h.1]
            simp [List.range'_succ]
          · rw [h.2]
            show st.counter + 1 + countIns rest = st.counter + (countIns rest + 1)
            omega
      | rem p =>
          have h := ih (filterById p st)
          simpa [runOps, countIns, filterById] using h

/-- C8: over every sequence of registry operations from the initial
state — inserts arbitrarily interleaved with removals — the handles the
successive `insert` calls return are exactly `0, 1, 2, …`: allocation
starts at 0, increments by exactly 1 per insert, and a handle is never
reused within the process lifetime even after the record that held it has
been removed (the returned list has no duplicates and the counter never
decreases). -/
theorem handles_sequential_never_reused (ops : List RegOp) :
    (runOps ops st0).1 = List.range (countIns ops) ∧
    (runOps ops st0).1.Nodup ∧
    (runOps ops st0).2.counter = countIns ops := by
  have h := runOps_eq ops st0
  have h1 : (runOps ops st0).1 = List.range (countIns ops) := by
    rw [h.1]
    simp [st0, List.range_eq_range']
  refine ⟨h1, ?_, ?_⟩
  · rw [h1]
    exact List.nodup_range _
  · rw [h.2]
    simp [st0]

end Resize
